import Mathlib

/-!
Verification of the network-services stack of the pico access-point project:
shallow embeddings of the DHCP lease allocator (dhcpserver.c), the DNS
responder (dnsserver.c) and the HTTP route/response code (routes.c,
http_response.c, http_server.c), with theorems checking the specification
claims against them.

Machine integers are modelled as Nat with explicit reductions modulo
2^8 / 2^16 / 2^32 where the C code relies on fixed-width behaviour.
-/

namespace Dhcp

/-- Lease entry, per the data model (dhcpserver.h is not part of the sources;
modelled from the spec: a Lease is a 6-byte client hardware address plus a
16-bit compressed expiry timestamp; an all-zero hardware address marks the
slot free). The mac field holds the 6 bytes; expiry holds the 16-bit value. -/
structure Lease where
  mac : List Nat
  expiry : Nat
deriving DecidableEq

/-- Default lease used for out-of-range getD reads in statements. -/
def dfltLease : Lease := { mac := [0, 0, 0, 0, 0, 0], expiry := 0 }

/-- The all-zero hardware address that marks a slot free
(the string of six NUL bytes compared by memcmp in dhcpserver.c). -/
def zeroMac : List Nat := [0, 0, 0, 0, 0, 0]

/-- Reconstructed 32-bit expiry: expiry << 16 | 0xffff, with the stored
field read as a 16-bit value (dhcpserver.c line 286). -/
def expiry32 (e : Nat) : Nat := (e % 65536) * 65536 + 65535

/-- The expiry test of dhcpserver.c line 287:
(int32_t)(expiry - cyw43_hal_ticks_ms()) < 0, where expiry is the
reconstructed 32-bit value and the subtraction is on uint32 operands;
a uint32 difference is negative as int32 exactly when it is at least 2^31. -/
def leaseExpired (e now : Nat) : Bool :=
  decide ((expiry32 e + 4294967296 - now % 4294967296) % 4294967296 ≥ 2147483648)

/-- A slot the DISCOVER scan may take over: free (zero hardware address) or
expired (dhcpserver.c lines 280-292). -/
def freeOrExpired (l : Lease) (now : Nat) : Bool :=
  decide (l.mac = zeroMac) || leaseExpired l.expiry now

/-- Predicate picking a slot whose stored hardware address equals the
requester's (the memcmp at dhcpserver.c line 275). -/
def pMatch (ch : List Nat) : Lease → Bool := fun l => decide (l.mac = ch)

/-- The DISCOVER scan of dhcpserver.c lines 273-293, embedded structurally:
i is the index of the head of the remaining list, yi is none while the C
variable yi still equals DHCPS_MAX_IP. A hardware-address match breaks the
loop at once; otherwise, while yi is unset, a free slot sets yi, and an
expired slot has its hardware address cleared and sets yi. Returns the
lease array as left by the loop together with the selected index. -/
def discoverScan (ch : List Nat) (now : Nat) :
    Nat → Option Nat → List Lease → List Lease × Option Nat
  | _, yi, [] => ([], yi)
  | i, yi, l :: ls =>
    if l.mac = ch then
      (l :: ls, some i)
    else
      match yi with
      | some j =>
        let r := discoverScan ch now (i + 1) (some j) ls
        (l :: r.1, r.2)
      | none =>
        if leaseExpired l.expiry now then
          let r := discoverScan ch now (i + 1) (some i) ls
          ({ l with mac := zeroMac } :: r.1, r.2)
        else if l.mac = zeroMac then
          let r := discoverScan ch now (i + 1) (some i) ls
          (l :: r.1, r.2)
        else
          let r := discoverScan ch now (i + 1) none ls
          (l :: r.1, r.2)

/-- opt_find of dhcpserver.c lines 168-176: scan the option area from
index i, stopping at END (255) or once i reaches 308; each option advances
by 2 + its length byte. Fuel bounds the iteration count (each step advances
i by at least 2, so 308 steps are more than enough). -/
def optFindAux (opts : List Nat) (cmd : Nat) : Nat → Nat → Option Nat
  | 0, _ => none
  | fuel + 1, i =>
    if i < 308 then
      if opts.getD i 0 = 255 then none
      else if opts.getD i 0 = cmd then some i
      else optFindAux opts cmd fuel (i + 2 + opts.getD (i + 1) 0)
    else none

/-- opt_find starting at the beginning of the option area (after the
4-byte magic cookie has been skipped by the caller). -/
def optFind (opts : List Nat) (cmd : Nat) : Option Nat :=
  optFindAux opts cmd 308 0

/-- The fields of the copied dhcp_msg_t that dhcp_server_process reads:
the first 6 bytes of chaddr and the 312-byte options area (whose first
4 bytes are assumed to be the magic cookie and skipped). -/
structure DhcpMsg where
  chaddr : List Nat
  options : List Nat
deriving DecidableEq

/-- The message type dispatched on by dhcp_server_process: the byte
msgtype[2] of the MSG_TYPE (53) option, located by opt_find after
skipping the 4-byte magic cookie (dhcpserver.c lines 262-271). -/
def msgTypeOf (msg : DhcpMsg) : Option Nat :=
  match optFind (msg.options.drop 4) 53 with
  | none => none
  | some m => some ((msg.options.drop 4).getD (m + 2) 0)

/-- Server state read and written by dhcp_server_process: the configured
local address as four octets and the lease table. -/
structure DhcpState where
  ip : List Nat
  leases : List Lease
deriving DecidableEq

/-- The observable reply of dhcp_server_process: the MSG_TYPE option value
written (2 = OFFER, 5 = ACK) and the yiaddr field of the outgoing message. -/
structure DhcpReply where
  msgType : Nat
  yiaddr : List Nat
deriving DecidableEq

/-- The committed expiry of dhcpserver.c line 328:
(cyw43_hal_ticks_ms() + 24*60*60*1000) >> 16 computed on uint32 and stored
into the 16-bit expiry field. -/
def newExpiry (now : Nat) : Nat :=
  (now % 4294967296 + 86400000) % 4294967296 / 65536 % 65536

/-- The first three data octets of the REQUESTED_IP option found at index j,
compared by the memcmp at dhcpserver.c line 309. -/
def reqOctets (msg : DhcpMsg) (j : Nat) : List Nat :=
  [(msg.options.drop 4).getD (j + 2) 0, (msg.options.drop 4).getD (j + 3) 0,
   (msg.options.drop 4).getD (j + 4) 0]

/-- The slot index of dhcpserver.c line 313: the last octet of the
REQUESTED_IP option minus DHCPS_BASE_IP, on uint8 (wrapping modulo 256). -/
def reqSlot (msg : DhcpMsg) (j base : Nat) : Nat :=
  ((msg.options.drop 4).getD (j + 5) 0 + 256 - base % 256) % 256

/-- dhcp_server_process (dhcpserver.c lines 240-352) from the point where
the datagram has been copied into dhcp_msg: dispatch on the MSG_TYPE
option; DISCOVER runs the lease scan and offers base+index, REQUEST
validates the REQUESTED_IP option and commits the lease; every rejection
leaves the state unchanged and produces no reply. The base argument is the
DHCPS_BASE_IP constant and the lease-table length plays DHCPS_MAX_IP. -/
def dhcp_server_process (st : DhcpState) (msg : DhcpMsg) (now base : Nat) :
    DhcpState × Option DhcpReply :=
  match msgTypeOf msg with
  | some 1 =>
    let r := discoverScan msg.chaddr now 0 none st.leases
    match r.2 with
    | none => ({ st with leases := r.1 }, none)
    | some yi =>
      ({ st with leases := r.1 },
       some { msgType := 2, yiaddr := st.ip.take 3 ++ [(base + yi) % 256] })
  | some 3 =>
    match optFind (msg.options.drop 4) 50 with
    | none => (st, none)
    | some j =>
      if reqOctets msg j = st.ip.take 3 then
        let yi := reqSlot msg j base
        if yi < st.leases.length then
          let l := st.leases.getD yi dfltLease
          if l.mac = msg.chaddr then
            ({ st with leases := st.leases.set yi { l with expiry := newExpiry now } },
             some { msgType := 5, yiaddr := st.ip.take 3 ++ [(base + yi) % 256] })
          else if l.mac = zeroMac then
            ({ st with leases :=
                st.leases.set yi { mac := msg.chaddr, expiry := newExpiry now } },
             some { msgType := 5, yiaddr := st.ip.take 3 ++ [(base + yi) % 256] })
          else (st, none)
        else (st, none)
      else (st, none)
  | _ => (st, none)

/-- First index of a list element satisfying p, used to state which slot
the DISCOVER scan selects. -/
def firstIdx (p : α → Bool) : List α → Option Nat
  | [] => none
  | l :: ls => if p l then some 0 else (firstIdx p ls).map (· + 1)

/-- A one-slot lease table holding an expired lease for a foreign hardware
address, used as the C1 counterexample state. -/
def exSt : DhcpState :=
  { ip := [192, 168, 4, 1], leases := [{ mac := [1, 1, 1, 1, 1, 1], expiry := 0 }] }

/-- A DISCOVER message (MSG_TYPE option value 1) from hardware address
02:02:02:02:02:02, with the magic cookie and an END option. -/
def exDiscover : DhcpMsg :=
  { chaddr := [2, 2, 2, 2, 2, 2], options := [99, 130, 83, 99, 53, 1, 1, 255] }

/-- Two-slot table with a free first slot and the requester's own address
in the second slot, exercising match precedence over earlier free slots. -/
def exStMatch : DhcpState :=
  { ip := [192, 168, 4, 1],
    leases := [{ mac := [0, 0, 0, 0, 0, 0], expiry := 0 },
               { mac := [2, 2, 2, 2, 2, 2], expiry := 0 }] }

/-- One-slot table holding a foreign lease with a chosen stored expiry. -/
def c4St (e : Nat) : DhcpState :=
  { ip := [192, 168, 4, 1], leases := [{ mac := [1, 2, 3, 4, 5, 6], expiry := e }] }

/-- A DISCOVER from hardware address 09:09:09:09:09:09. -/
def c4Msg : DhcpMsg :=
  { chaddr := [9, 9, 9, 9, 9, 9], options := [99, 130, 83, 99, 53, 1, 1, 255] }

/-- Three free slots, for exercising a REQUEST commit. -/
def exStReq : DhcpState :=
  { ip := [192, 168, 4, 1],
    leases := [{ mac := [0, 0, 0, 0, 0, 0], expiry := 0 },
               { mac := [0, 0, 0, 0, 0, 0], expiry := 0 },
               { mac := [0, 0, 0, 0, 0, 0], expiry := 0 }] }

/-- A REQUEST (MSG_TYPE 3) with REQUESTED_IP 192.168.4.18 from hardware
address 07:07:07:07:07:07. -/
def exRequest : DhcpMsg :=
  { chaddr := [7, 7, 7, 7, 7, 7],
    options := [99, 130, 83, 99, 53, 1, 3, 50, 4, 192, 168, 4, 18, 255] }

end Dhcp

namespace Dns

/-- The question-name scan of dnsserver.c lines 205-221: starting at pos,
while pos is inside the message, a zero byte ends the name (consuming it);
a label length above 63 aborts processing (none); otherwise advance past
the label. Returns the final question_ptr together with whether the name
was terminated by a zero byte inside the message. Fuel bounds the loop
(each step advances pos by at least 1, so 300 steps are enough for a
message of at most 300 bytes). -/
def scanName (buf : List Nat) (msgLen : Nat) : Nat → Nat → Option (Nat × Bool)
  | 0, pos => some (pos, false)
  | fuel + 1, pos =>
    if pos < msgLen then
      let b := buf.getD pos 0
      if b = 0 then some (pos + 1, true)
      else if b > 63 then none
      else scanName buf msgLen fuel (pos + 1 + b)
    else some (pos, false)

/-- The host-order flags word read at bytes 2 and 3 of the DNS header
(lwip_ntohs of the big-endian field). -/
def dnsFlags (l : List Nat) : Nat := l.getD 2 0 * 256 + l.getD 3 0

/-- The host-order question count read at bytes 4 and 5 of the DNS header. -/
def dnsQCount (l : List Nat) : Nat := l.getD 4 0 * 256 + l.getD 5 0

/-- dns_server_process (dnsserver.c lines 154-269). The datagram is copied
into a 300-byte stack buffer (msg_len = min of the datagram length and
300); junk stands for the uninitialized stack bytes beyond the copied
region. Validation failures return none (silent drop). On success the
answer record is written after the question, the header is rewritten as an
authoritative response, and the first qEnd + 16 bytes are sent. -/
def dns_server_process (ip input junk : List Nat) : Option (List Nat) :=
  let msgLen := min input.length 300
  let buf := input.take 300 ++ junk
  if msgLen < 12 then none
  else if dnsFlags buf / 32768 % 2 ≠ 0 then none
  else if dnsFlags buf / 2048 % 16 ≠ 0 then none
  else if dnsQCount buf < 1 then none
  else
    match scanName buf msgLen 300 12 with
    | none => none
    | some (p, _) =>
      if p - 12 > 255 then none
      else
        let qEnd := p + 4
        let afterAnswer :=
          buf.take qEnd ++ ([192, 12, 0, 1, 0, 1, 0, 0, 0, 60, 0, 4] ++ ip.take 4)
        let reply :=
          afterAnswer.take 2 ++ [132, 128, 0, 1, 0, 1, 0, 0, 0, 0] ++ afterAnswer.drop 12
        some (reply.take (qEnd + 16))

/-- A well-formed single-question standard query ending at name position p:
fits the 300-byte buffer, has the full header, QR clear, opcode zero, at
least one question, a zero-terminated name of span p - 12 at most 255, and
exactly the 4 qtype/qclass bytes after the name. -/
def wellFormedQuery (input : List Nat) (p : Nat) : Prop :=
  input.length ≤ 300 ∧ 12 ≤ input.length ∧
  dnsFlags input / 32768 % 2 = 0 ∧
  dnsFlags input / 2048 % 16 = 0 ∧
  1 ≤ dnsQCount input ∧
  scanName input input.length 300 12 = some (p, true) ∧
  p - 12 ≤ 255 ∧
  input.length = p + 4

/-- A concrete well-formed A query for the name "ab": id 1, flags 0x0100
(recursion desired), one question, name (2)ab(0), qtype A, qclass IN. -/
def exQuery : List Nat :=
  [0, 1, 1, 0, 0, 1, 0, 0, 0, 0, 0, 0, 2, 97, 98, 0, 0, 1, 0, 1]

/-- The same datagram with the QR bit already set (flags 0x8100): a
response, not a query, which must be dropped. -/
def exBadQuery : List Nat :=
  [0, 1, 129, 0, 0, 1, 0, 0, 0, 0, 0, 0, 2, 97, 98, 0, 0, 1, 0, 1]

end Dns

namespace Http

/-- MAX_HEADERS_SIZE from http_response.h: capacity of the headers area. -/
def MAX_HEADERS_SIZE : Nat := 1024

/-- UTF-8 code units of an ASCII string, for writing byte lists readably. -/
def asciiBytes (s : String) : List Nat := s.data.map Char.toNat

/-- http_response_t (http_response.h lines 8-15). The headers character
array is modelled as the list of bytes written before the terminating NUL,
so the NUL sits at index headers, and headers_len mirrors the C field.
The body is kept as the string whose bytes the C strings hold. -/
structure HttpResponse where
  status_code : Int
  status_message : Option String
  headers : List Nat
  headers_len : Nat
  body : Option String
  body_len : Nat
deriving DecidableEq

/-- init_http_response (http_response.c): zeroed status, NULL message,
empty header block, NULL body. -/
def init_http_response : HttpResponse :=
  { status_code := 0, status_message := none, headers := [], headers_len := 0,
    body := none, body_len := 0 }

/-- set_response_status (http_response.c): stores code and message. -/
def set_response_status (r : HttpResponse) (code : Int) (message : String) :
    HttpResponse :=
  { r with status_code := code, status_message := some message }

/-- add_response_header (http_response.c lines 193-216) with the value
already formatted to its byte sequence (the vsnprintf result): if the
formatted value is empty or at least 256 bytes nothing is appended;
otherwise the line key ++ ": " ++ value ++ CRLF is appended in full when
it fits strictly below the remaining space, and is otherwise truncated to
remaining - 1 bytes with headers_len forced to MAX_HEADERS_SIZE - 1. -/
def add_response_header (r : HttpResponse) (key value : List Nat) : HttpResponse :=
  let written := value.length
  if 0 < written ∧ written < 256 then
    let line := key ++ [58, 32] ++ value ++ [13, 10]
    let remaining := MAX_HEADERS_SIZE - r.headers_len
    if line.length < remaining then
      { r with headers := r.headers ++ line,
               headers_len := r.headers_len + line.length }
    else
      { r with headers := r.headers ++ line.take (remaining - 1),
               headers_len := MAX_HEADERS_SIZE - 1 }
  else r

/-- set_response_body (http_response.c lines 227-250) with allocation
succeeding: stores a copy of the body and its strlen; a NULL body clears
both fields. -/
def set_response_body (r : HttpResponse) (b : Option String) : HttpResponse :=
  match b with
  | some s => { r with body := some s, body_len := s.utf8ByteSize }
  | none => { r with body := none, body_len := 0 }

/-- The embedded index page of routes.c get_html_content (braces of the
stylesheet written as the escapes \x7b and \x7d). -/
def htmlTemplate : String :=
  "<!DOCTYPE html>\n" ++
  "<html lang=\"pt-BR\">\n" ++
  "<head>\n" ++
  "    <meta charset=\"UTF-8\">\n" ++
  "    <meta name=\"viewport\" content=\"width=device-width, initial-scale=1.0\">\n" ++
  "    <title>Minha Rota Inicial (Embutida)</title>\n" ++
  "    <style>\n" ++
  "        body \x7b\n" ++
  "            font-family: Arial, sans-serif;\n" ++
  "            background-color: #f4f4f4;\n" ++
  "            color: #333;\n" ++
  "            margin: 0;\n" ++
  "            display: flex;\n" ++
  "            justify-content: center;\n" ++
  "            align-items: center;\n" ++
  "            min-height: 100vh;\n" ++
  "            flex-direction: column;\n" ++
  "        \x7d\n" ++
  "        .container \x7b\n" ++
  "            background-color: #fff;\n" ++
  "            padding: 30px;\n" ++
  "            border-radius: 8px;\n" ++
  "            box-shadow: 0 4px 8px rgba(0, 0, 0, 0.1);\n" ++
  "            text-align: center;\n" ++
  "        \x7d\n" ++
  "        h1 \x7b\n" ++
  "            color: #0056b3;\n" ++
  "        \x7d\n" ++
  "        p \x7b\n" ++
  "            line-height: 1.6;\n" ++
  "        \x7d\n" ++
  "        .footer \x7b\n" ++
  "            margin-top: 20px;\n" ++
  "            font-size: 0.8em;\n" ++
  "            color: #666;\n" ++
  "        \x7d\n" ++
  "    </style>\n" ++
  "</head>\n" ++
  "<body>\n" ++
  "    <div class=\"container\">\n" ++
  "        <h1>Bem-vindo à Rota Inicial!</h1>\n" ++
  "        <p>Este é o conteúdo da sua página inicial, servido diretamente do código C.</p>\n" ++
  "        <p>Sem arquivos HTML externos!</p>\n" ++
  "    </div>\n" ++
  "    <div class=\"footer\">\n" ++
  "        <p>&copy; 2025 Minha Aplicação. Todos os direitos reservados.</p>\n" ++
  "    </div>\n" ++
  "</body>\n" ++
  "</html>\n"

/-- get_html_content (routes.c lines 28-86) with malloc succeeding:
a fresh copy of the template. -/
def get_html_content : Option String := some htmlTemplate

/-- handle_route (routes.c lines 120-130). The request is the byte string
handed over by tcp_server_recv; the two strncmp tests compare its first 6
bytes with "GET / " and its first 10 bytes with "GET /index". The index
branch only stores the body (it sets neither status nor headers); the
fallback sets 404 with a plain-text body. -/
def handle_route (request : List Nat) (r : HttpResponse) : HttpResponse :=
  if request.take 6 = asciiBytes "GET / " ∨
      request.take 10 = asciiBytes "GET /index" then
    set_response_body r get_html_content
  else
    set_response_body
      (add_response_header (set_response_status r 404 "Not Found")
        (asciiBytes "Content-Type") (asciiBytes "text/plain"))
      (some "Página não encontrada.")

/-- A 300-byte header key used to fill the header area quickly. -/
def exKey : List Nat := List.replicate 300 65

/-- A 255-byte header value (the largest the value buffer accepts). -/
def exVal : List Nat := List.replicate 255 66

end Http


namespace Dhcp

theorem firstIdx_eq_some {α : Type} (p : α → Bool) (d : α) (ls : List α) (k : Nat)
    (hk : k < ls.length) (hp : p (ls.getD k d) = true)
    (hmin : ∀ j, j < k → p (ls.getD j d) = false) : firstIdx p ls = some k := by
  induction ls generalizing k with
  | nil => simp at hk
  | cons l ls ih =>
    cases k with
    | zero =>
      simp only [List.getD_cons_zero] at hp
      simp [firstIdx, hp]
    | succ k =>
      have h0 : p l = false := by simpa using hmin 0 (Nat.succ_pos k)
      have ht : firstIdx p ls = some k := by
        refine ih k (by simpa using hk) (by simpa using hp) ?_
        intro j hj
        simpa using hmin (j + 1) (by omega)
      simp [firstIdx, h0, ht]

theorem firstIdx_eq_none {α : Type} (p : α → Bool) (d : α) (ls : List α)
    (h : ∀ j, j < ls.length → p (ls.getD j d) = false) : firstIdx p ls = none := by
  induction ls with
  | nil => rfl
  | cons l ls ih =>
    have h0 : p l = false := by simpa using h 0 (by simp)
    have ht : firstIdx p ls = none := by
      refine ih ?_
      intro j hj
      simpa using h (j + 1) (by simpa using Nat.succ_lt_succ hj)
    simp [firstIdx, h0, ht]

theorem discoverScan_snd (ch : List Nat) (now : Nat) (ls : List Lease) :
    ∀ (i : Nat) (yi : Option Nat),
    (discoverScan ch now i yi ls).2 =
      match firstIdx (pMatch ch) ls with
      | some p => some (i + p)
      | none =>
        match yi with
        | some j => some j
        | none => (firstIdx (fun l => freeOrExpired l now) ls).map (i + ·) := by
  induction ls with
  | nil => intro i yi; cases yi <;> simp [discoverScan, firstIdx]
  | cons l ls ih =>
    intro i yi
    by_cases hm : l.mac = ch
    · simp [discoverScan, hm, firstIdx, pMatch]
    · have hpm : pMatch ch l = false := by simp [pMatch, hm]
      cases yi with
      | some j =>
        have hrec := ih (i + 1) (some j)
        simp only [discoverScan, if_neg hm]
        rw [hrec]
        cases hfi : firstIdx (pMatch ch) ls with
        | none => simp [firstIdx, hpm, hfi]
        | some p =>
          have harith : i + 1 + p = i + (p + 1) := by omega
          simp [firstIdx, hpm, hfi, harith]
      | none =>
        by_cases hE : leaseExpired l.expiry now
        · have hfe : freeOrExpired l now = true := by simp [freeOrExpired, hE]
          have hrec := ih (i + 1) (some i)
          simp only [discoverScan, if_neg hm, hE, if_true]
          rw [hrec]
          cases hfi : firstIdx (pMatch ch) ls with
          | none => simp [firstIdx, hpm, hfe, hfi]
          | some p =>
            have harith : i + 1 + p = i + (p + 1) := by omega
            simp [firstIdx, hpm, hfe, hfi, harith]
        · have hEf : leaseExpired l.expiry now = false := by simpa using hE
          by_cases hz : l.mac = zeroMac
          · have hfe : freeOrExpired l now = true := by simp [freeOrExpired, hz]
            have hrec := ih (i + 1) (some i)
            simp only [discoverScan, if_neg hm, hEf, Bool.false_eq_true, if_false,
              if_pos hz]
            rw [hrec]
            cases hfi : firstIdx (pMatch ch) ls with
            | none => simp [firstIdx, hpm, hfe, hfi]
            | some p =>
              have harith : i + 1 + p = i + (p + 1) := by omega
              simp [firstIdx, hpm, hfe, hfi, harith]
          · have hfe : freeOrExpired l now = false := by
              simp [freeOrExpired, hz, hEf]
            have hrec := ih (i + 1) none
            simp only [discoverScan, if_neg hm, hEf, Bool.false_eq_true, if_false,
              if_neg hz]
            rw [hrec]
            cases hfi : firstIdx (pMatch ch) ls with
            | none =>
              cases hfo : firstIdx (fun l => freeOrExpired l now) ls with
              | none => simp [firstIdx, hpm, hfe, hfi, hfo]
              | some q =>
                have harith : i + 1 + q = i + (q + 1) := by omega
                simp [firstIdx, hpm, hfe, hfi, hfo, harith]
            | some p =>
              have harith : i + 1 + p = i + (p + 1) := by omega
              simp [firstIdx, hpm, hfi, harith]

end Dhcp

namespace Dhcp

theorem discoverScan_fst_length (ch : List Nat) (now : Nat) (ls : List Lease) :
    ∀ (i : Nat) (yi : Option Nat),
    (discoverScan ch now i yi ls).1.length = ls.length := by
  induction ls with
  | nil => intro i yi; simp [discoverScan]
  | cons l ls ih =>
    intro i yi
    by_cases hm : l.mac = ch
    · simp [discoverScan, hm]
    · cases yi with
      | some j => simp [discoverScan, hm, ih]
      | none =>
        by_cases hE : leaseExpired l.expiry now
        · simp [discoverScan, hm, hE, ih]
        · have hEf : leaseExpired l.expiry now = false := by simpa using hE
          by_cases hz : l.mac = zeroMac
          · simp only [discoverScan, if_neg hm, hEf, Bool.false_eq_true, if_false,
              if_pos hz]
            simp [ih]
          · simp [discoverScan, hm, hEf, hz, ih]

theorem discoverScan_fst_getD (ch : List Nat) (now : Nat) (ls : List Lease) :
    ∀ (i : Nat) (yi : Option Nat) (k : Nat),
    (discoverScan ch now i yi ls).1.getD k dfltLease = ls.getD k dfltLease ∨
    ((discoverScan ch now i yi ls).1.getD k dfltLease =
        { ls.getD k dfltLease with mac := zeroMac } ∧
      leaseExpired (ls.getD k dfltLease).expiry now = true) := by
  induction ls with
  | nil => intro i yi k; left; simp [discoverScan]
  | cons l ls ih =>
    intro i yi k
    by_cases hm : l.mac = ch
    · left; simp [discoverScan, hm]
    · cases yi with
      | some j =>
        simp only [discoverScan, if_neg hm]
        cases k with
        | zero => left; simp
        | succ k =>
          simpa only [List.getD_cons_succ] using ih (i + 1) (some j) k
      | none =>
        by_cases hE : leaseExpired l.expiry now
        · simp only [discoverScan, if_neg hm, hE, if_true]
          cases k with
          | zero => right; simp [hE]
          | succ k =>
            simpa only [List.getD_cons_succ] using ih (i + 1) (some i) k
        · have hEf : leaseExpired l.expiry now = false := by simpa using hE
          by_cases hz : l.mac = zeroMac
          · simp only [discoverScan, if_neg hm, hEf, Bool.false_eq_true, if_false,
              if_pos hz]
            cases k with
            | zero => left; simp
            | succ k =>
              simpa only [List.getD_cons_succ] using ih (i + 1) (some i) k
          · simp only [discoverScan, if_neg hm, hEf, Bool.false_eq_true, if_false,
              if_neg hz]
            cases k with
            | zero => left; simp
            | succ k =>
              simpa only [List.getD_cons_succ] using ih (i + 1) none k

/-- C1 counterexample: the lease table does change on a DISCOVER. The
one-slot table holds an expired lease for 01:01:01:01:01:01 (stored expiry
0, current tick 100000); processing a DISCOVER from 02:02:02:02:02:02
zeroes the stored hardware address (dhcpserver.c line 289), so the table
after dhcp_server_process differs from the table before. -/
theorem dhcp_c1_counterexample :
    (dhcp_server_process exSt exDiscover 100000 16).1.leases ≠ exSt.leases := by
  decide

/-- C1 amended: processing a DISCOVER never commits a lease; the table
after dhcp_server_process agrees with the table before at every slot,
except that a slot holding an expired lease may have its hardware address
zeroed (its expiry is kept); in particular, if no slot is expired, the
DISCOVER leaves the table unchanged, and hardware-address/expiry writes
happen only on a REQUEST commit. -/
theorem dhcp_c1_amended (st : DhcpState) (msg : DhcpMsg) (now base : Nat)
    (h : msgTypeOf msg = some 1) :
    (dhcp_server_process st msg now base).1.leases.length = st.leases.length ∧
    ∀ k,
      (dhcp_server_process st msg now base).1.leases.getD k dfltLease =
          st.leases.getD k dfltLease ∨
      ((dhcp_server_process st msg now base).1.leases.getD k dfltLease =
          { st.leases.getD k dfltLease with mac := zeroMac } ∧
        leaseExpired (st.leases.getD k dfltLease).expiry now = true) := by
  have hL : (dhcp_server_process st msg now base).1.leases =
      (discoverScan msg.chaddr now 0 none st.leases).1 := by
    simp only [dhcp_server_process, h]
    cases hr : (discoverScan msg.chaddr now 0 none st.leases).2 <;> simp [hr]
  rw [hL]
  exact ⟨discoverScan_fst_length msg.chaddr now st.leases 0 none,
    fun k => discoverScan_fst_getD msg.chaddr now st.leases 0 none k⟩

/-- Witness for the amended C1 at the counterexample input: the DISCOVER
message resolves to type 1 and the mutation is exactly the allowed
zeroing of the expired slot. -/
theorem dhcp_c1_amended_witness :
    msgTypeOf exDiscover = some 1 ∧
    ((dhcp_server_process exSt exDiscover 100000 16).1.leases.length =
        exSt.leases.length ∧
      ∀ k,
        (dhcp_server_process exSt exDiscover 100000 16).1.leases.getD k dfltLease =
            exSt.leases.getD k dfltLease ∨
        ((dhcp_server_process exSt exDiscover 100000 16).1.leases.getD k dfltLease =
            { exSt.leases.getD k dfltLease with mac := zeroMac } ∧
          leaseExpired (exSt.leases.getD k dfltLease).expiry 100000 = true)) :=
  ⟨by decide, dhcp_c1_amended exSt exDiscover 100000 16 (by decide)⟩

end Dhcp

namespace Dhcp

theorem dhcp_process_discover_snd (st : DhcpState) (msg : DhcpMsg) (now base : Nat)
    (h : msgTypeOf msg = some 1) :
    (dhcp_server_process st msg now base).2 =
      ((discoverScan msg.chaddr now 0 none st.leases).2).map
        (fun yi => { msgType := 2, yiaddr := st.ip.take 3 ++ [(base + yi) % 256] }) := by
  simp only [dhcp_server_process, h]
  cases hr : (discoverScan msg.chaddr now 0 none st.leases).2 <;> simp [hr]

/-- C3: the DISCOVER selection. If some slot already stores the requester's
hardware address, the first such slot is offered, regardless of any earlier
free or expired slot; failing any match, the first free-or-expired slot is
offered; and when every slot is a live lease of another hardware address,
no reply is produced. -/
theorem dhcp_c3 (st : DhcpState) (msg : DhcpMsg) (now base : Nat)
    (h : msgTypeOf msg = some 1) :
    (∀ k, k < st.leases.length →
        (st.leases.getD k dfltLease).mac = msg.chaddr →
        (∀ j, j < k → (st.leases.getD j dfltLease).mac ≠ msg.chaddr) →
        (dhcp_server_process st msg now base).2 =
          some { msgType := 2, yiaddr := st.ip.take 3 ++ [(base + k) % 256] }) ∧
    ((∀ j, j < st.leases.length → (st.leases.getD j dfltLease).mac ≠ msg.chaddr) →
      ∀ k, k < st.leases.length →
        freeOrExpired (st.leases.getD k dfltLease) now = true →
        (∀ j, j < k → freeOrExpired (st.leases.getD j dfltLease) now = false) →
        (dhcp_server_process st msg now base).2 =
          some { msgType := 2, yiaddr := st.ip.take 3 ++ [(base + k) % 256] }) ∧
    ((∀ j, j < st.leases.length →
        (st.leases.getD j dfltLease).mac ≠ msg.chaddr ∧
        freeOrExpired (st.leases.getD j dfltLease) now = false) →
      (dhcp_server_process st msg now base).2 = none) := by
  have hP := dhcp_process_discover_snd st msg now base h
  have hS := discoverScan_snd msg.chaddr now st.leases 0 none
  refine ⟨?_, ?_, ?_⟩
  · intro k hk hmk hmin
    have hfi : firstIdx (pMatch msg.chaddr) st.leases = some k := by
      refine firstIdx_eq_some _ dfltLease _ k hk ?_ ?_
      · simp only [pMatch, decide_eq_true_eq]
        exact hmk
      · intro j hj
        simp only [pMatch, decide_eq_false_iff_not]
        exact hmin j hj
    rw [hP, hS]
    simp [hfi]
  · intro hnone k hk hfk hmin
    have hfiM : firstIdx (pMatch msg.chaddr) st.leases = none := by
      refine firstIdx_eq_none _ dfltLease _ ?_
      intro j hj
      simp only [pMatch, decide_eq_false_iff_not]
      exact hnone j hj
    have hfiF : firstIdx (fun l => freeOrExpired l now) st.leases = some k :=
      firstIdx_eq_some _ dfltLease _ k hk hfk (fun j hj => hmin j hj)
    rw [hP, hS]
    simp [hfiM, hfiF]
  · intro hall
    have hfiM : firstIdx (pMatch msg.chaddr) st.leases = none := by
      refine firstIdx_eq_none _ dfltLease _ ?_
      intro j hj
      simp only [pMatch, decide_eq_false_iff_not]
      exact (hall j hj).1
    have hfiF : firstIdx (fun l => freeOrExpired l now) st.leases = none :=
      firstIdx_eq_none _ dfltLease _ (fun j hj => (hall j hj).2)
    rw [hP, hS]
    simp [hfiM, hfiF]

/-- Witness for C3: on the two-slot table whose first slot is free and
whose second slot already stores the requester's hardware address, the
exact match wins and slot 1 (address base + 1 = 17) is offered. -/
theorem dhcp_c3_witness :
    msgTypeOf exDiscover = some 1 ∧
    (dhcp_server_process exStMatch exDiscover 0 16).2 =
      some { msgType := 2, yiaddr := [192, 168, 4, 17] } :=
  ⟨by decide,
   (dhcp_c3 exStMatch exDiscover 0 16 (by decide)).1 1 (by decide) (by decide)
     (fun j hj => by
       have hj0 : j = 0 := by omega
       subst hj0
       decide)⟩

/-- C4: classification of a slot as expired uses the reconstructed 32-bit
value expiry << 16 | 0xffff and the sign of its 32-bit difference from the
current tick, for every stored expiry and every tick value: on a one-slot
table holding a foreign lease, the DISCOVER is answered exactly when that
signed difference is negative, and in that case the slot is reclaimed
(hardware address zeroed) and offered. -/
theorem dhcp_c4 (e now : Nat) (hnow : now < 4294967296) :
    ((dhcp_server_process (c4St e) c4Msg now 16).2 ≠ none ↔
      (e % 65536 * 65536 + 65535 + 4294967296 - now) % 4294967296 ≥ 2147483648) ∧
    ((e % 65536 * 65536 + 65535 + 4294967296 - now) % 4294967296 ≥ 2147483648 →
      (dhcp_server_process (c4St e) c4Msg now 16).1.leases =
          [{ mac := zeroMac, expiry := e }] ∧
      (dhcp_server_process (c4St e) c4Msg now 16).2 =
        some { msgType := 2, yiaddr := [192, 168, 4, 16] }) := by
  have hty : msgTypeOf c4Msg = some 1 := by decide
  have hform : leaseExpired e now = true ↔
      (e % 65536 * 65536 + 65535 + 4294967296 - now) % 4294967296 ≥ 2147483648 := by
    rw [leaseExpired, expiry32, decide_eq_true_eq, Nat.mod_eq_of_lt hnow]
  by_cases hE : leaseExpired e now
  · have hrun : dhcp_server_process (c4St e) c4Msg now 16 =
        ({ ip := [192, 168, 4, 1], leases := [{ mac := zeroMac, expiry := e }] },
         some { msgType := 2, yiaddr := [192, 168, 4, 16] }) := by
      simp only [dhcp_server_process, hty]
      simp only [c4St, c4Msg]
      simp [discoverScan, hE, zeroMac]
    rw [hrun]
    exact ⟨iff_of_true (by simp) (hform.mp hE), fun _ => ⟨rfl, rfl⟩⟩
  · have hEf : leaseExpired e now = false := by simpa using hE
    have hrun : dhcp_server_process (c4St e) c4Msg now 16 =
        (c4St e, none) := by
      simp only [dhcp_server_process, hty]
      simp only [c4St, c4Msg]
      simp [discoverScan, hEf, zeroMac]
    have hnot : ¬((e % 65536 * 65536 + 65535 + 4294967296 - now) % 4294967296 ≥
        2147483648) := fun hge => hE (hform.mpr hge)
    rw [hrun]
    exact ⟨iff_of_false (by simp) hnot, fun hge => absurd hge hnot⟩

/-- Witness for C4 at a pair straddling the 16-bit wrap boundary: the
stored expiry 1250 is numerically far below the tick 85196800 (upper half
1300) after the compressed counter wrapped, the signed difference is
negative, and the slot is reclaimed and offered. -/
theorem dhcp_c4_witness :
    85196800 < 4294967296 ∧
    (1250 % 65536 * 65536 + 65535 + 4294967296 - 85196800) % 4294967296 ≥
      2147483648 ∧
    (dhcp_server_process (c4St 1250) c4Msg 85196800 16).1.leases =
      [{ mac := zeroMac, expiry := 1250 }] ∧
    (dhcp_server_process (c4St 1250) c4Msg 85196800 16).2 =
      some { msgType := 2, yiaddr := [192, 168, 4, 16] } :=
  ⟨by decide, by decide,
   ((dhcp_c4 1250 85196800 (by decide)).2 (by decide)).1,
   ((dhcp_c4 1250 85196800 (by decide)).2 (by decide)).2⟩

end Dhcp

namespace Dhcp

/-- C5: the REQUEST path. A missing REQUESTED_IP option, a subnet
mismatch on its first three octets, or an out-of-range slot index drops
the message with the state unchanged; a slot that is unused or already
owned by the requester is committed with the requester's hardware address
and expiry (now + 86400000) truncated to the upper 16 bits; a slot owned
by another hardware address drops the message with the state unchanged. -/
theorem dhcp_c5 (st : DhcpState) (msg : DhcpMsg) (now base : Nat)
    (h : msgTypeOf msg = some 3) :
    (optFind (msg.options.drop 4) 50 = none →
      dhcp_server_process st msg now base = (st, none)) ∧
    ∀ j, optFind (msg.options.drop 4) 50 = some j →
      (reqOctets msg j ≠ st.ip.take 3 →
        dhcp_server_process st msg now base = (st, none)) ∧
      (reqOctets msg j = st.ip.take 3 →
        (st.leases.length ≤ reqSlot msg j base →
          dhcp_server_process st msg now base = (st, none)) ∧
        (reqSlot msg j base < st.leases.length →
          ((st.leases.getD (reqSlot msg j base) dfltLease).mac = msg.chaddr →
            dhcp_server_process st msg now base =
              (DhcpState.mk st.ip
                 (st.leases.set (reqSlot msg j base)
                   (Lease.mk (st.leases.getD (reqSlot msg j base) dfltLease).mac
                     ((now % 4294967296 + 86400000) % 4294967296 / 65536 % 65536))),
               some (DhcpReply.mk 5
                 (st.ip.take 3 ++ [(base + reqSlot msg j base) % 256])))) ∧
          ((st.leases.getD (reqSlot msg j base) dfltLease).mac ≠ msg.chaddr →
            (st.leases.getD (reqSlot msg j base) dfltLease).mac = zeroMac →
            dhcp_server_process st msg now base =
              (DhcpState.mk st.ip
                 (st.leases.set (reqSlot msg j base)
                   (Lease.mk msg.chaddr
                     ((now % 4294967296 + 86400000) % 4294967296 / 65536 % 65536))),
               some (DhcpReply.mk 5
                 (st.ip.take 3 ++ [(base + reqSlot msg j base) % 256])))) ∧
          ((st.leases.getD (reqSlot msg j base) dfltLease).mac ≠ msg.chaddr →
            (st.leases.getD (reqSlot msg j base) dfltLease).mac ≠ zeroMac →
            dhcp_server_process st msg now base = (st, none)))) := by
  refine ⟨?_, ?_⟩
  · intro h50
    simp [dhcp_server_process, h, h50]
  · intro j hj
    refine ⟨?_, ?_⟩
    · intro hne
      simp [dhcp_server_process, h, hj, hne]
    · intro heq
      refine ⟨?_, ?_⟩
      · intro hge
        have hnlt : ¬(reqSlot msg j base < st.leases.length) := by omega
        simp [dhcp_server_process, h, hj, heq, hnlt]
      · intro hlt
        refine ⟨?_, ?_, ?_⟩
        · intro hmac
          simp only [dhcp_server_process, h, hj, heq, if_true, if_pos hlt,
            if_pos hmac, newExpiry]
        · intro hne hz
          simp only [dhcp_server_process, h, hj, heq, if_true, if_pos hlt,
            if_neg hne, if_pos hz, newExpiry]
        · intro hne hz
          simp only [dhcp_server_process, h, hj, heq, if_true, if_pos hlt,
            if_neg hne, if_neg hz]

/-- Witness for C5: a REQUEST for 192.168.4.18 on a three-slot table of
free slots commits slot 2 with the requester's hardware address and
expiry (0 + 86400000) >> 16 = 1318, and is acknowledged. -/
theorem dhcp_c5_witness :
    msgTypeOf exRequest = some 3 ∧
    dhcp_server_process exStReq exRequest 0 16 =
      ({ ip := [192, 168, 4, 1],
         leases := [{ mac := [0, 0, 0, 0, 0, 0], expiry := 0 },
                    { mac := [0, 0, 0, 0, 0, 0], expiry := 0 },
                    { mac := [7, 7, 7, 7, 7, 7], expiry := 1318 }] },
       some { msgType := 5, yiaddr := [192, 168, 4, 18] }) := by
  refine ⟨by decide, ?_⟩
  have happ := ((((dhcp_c5 exStReq exRequest 0 16 (by decide)).2 3 (by decide)).2
      (by decide)).2 (by decide)).2.1 (by decide) (by decide)
  exact happ.trans (by decide)

end Dhcp

namespace Dns

theorem getD_append_left (a b : List Nat) (q d : Nat) (h : q < a.length) :
    (a ++ b).getD q d = a.getD q d := by
  induction a generalizing q with
  | nil => simp at h
  | cons x xs ih =>
    cases q with
    | zero => simp
    | succ q => simpa using ih q (by simpa using h)

theorem getD_take_lt (l : List Nat) (n q d : Nat) (h : q < n) :
    (l.take n).getD q d = l.getD q d := by
  induction l generalizing n q with
  | nil => simp
  | cons x xs ih =>
    cases n with
    | zero => omega
    | succ n =>
      cases q with
      | zero => simp
      | succ q => simpa using ih n q (by omega)

theorem scanName_congr (a b : List Nat) (msgLen : Nat)
    (h : ∀ q, q < msgLen → a.getD q 0 = b.getD q 0) :
    ∀ fuel pos, scanName a msgLen fuel pos = scanName b msgLen fuel pos := by
  intro fuel
  induction fuel with
  | zero => intro pos; rfl
  | succ fuel ih =>
    intro pos
    by_cases hp : pos < msgLen
    · simp only [scanName, if_pos hp, h pos hp]
      split_ifs <;> first | rfl | exact ih _
    · simp only [scanName, if_neg hp]

/-- C6: every well-formed single-question standard query is answered, and
the reply is exactly the query with the header rewritten to QR=1 AA=1 RA=1
(0x8480), question count 1, answer count 1, authority and additional 0,
followed by one answer record: a compressed pointer to the question at
offset 12, type A, class IN, TTL 60, data length 4, and the configured
local address — whatever the queried name was. -/
theorem dns_c6 (ip input junk : List Nat) (p : Nat) (hip : ip.length = 4)
    (hwf : wellFormedQuery input p) :
    dns_server_process ip input junk =
      some (input.take 2 ++ [132, 128, 0, 1, 0, 1, 0, 0, 0, 0] ++ input.drop 12 ++
        [192, 12, 0, 1, 0, 1, 0, 0, 0, 60, 0, 4] ++ ip) := by
  obtain ⟨h300, h12, hqr, hop, hqc, hscan, hspan, hlen⟩ := hwf
  have hmin : min input.length 300 = input.length := by omega
  have htake : input.take 300 = input := List.take_of_length_le h300
  have hfl : dnsFlags (input ++ junk) = dnsFlags input := by
    unfold dnsFlags
    rw [getD_append_left _ _ _ _ (by omega), getD_append_left _ _ _ _ (by omega)]
  have hqcnt : dnsQCount (input ++ junk) = dnsQCount input := by
    unfold dnsQCount
    rw [getD_append_left _ _ _ _ (by omega), getD_append_left _ _ _ _ (by omega)]
  have hsc : scanName (input ++ junk) input.length 300 12 = some (p, true) := by
    rw [scanName_congr (input ++ junk) input input.length
      (fun q hq => getD_append_left _ _ _ _ (by omega))]
    exact hscan
  have hip4 : ip.take 4 = ip := by rw [← hip]; exact List.take_length ip
  simp only [dns_server_process]
  rw [htake, hmin]
  rw [if_neg (by omega : ¬input.length < 12)]
  rw [hfl]
  rw [if_neg (by simp [hqr])]
  rw [if_neg (by simp [hop])]
  rw [hqcnt]
  rw [if_neg (by omega : ¬dnsQCount input < 1)]
  rw [hsc]
  simp only []
  rw [if_neg (by omega : ¬p - 12 > 255)]
  have hbt : (input ++ junk).take (p + 4) = input := by
    rw [← hlen]
    exact List.take_left input junk
  rw [hbt, hip4]
  have ht2 : List.take 2 (input ++ ([192, 12, 0, 1, 0, 1, 0, 0, 0, 60, 0, 4] ++ ip)) =
      List.take 2 input := List.take_append_of_le_length (by omega)
  have hd12 : List.drop 12 (input ++ ([192, 12, 0, 1, 0, 1, 0, 0, 0, 60, 0, 4] ++ ip)) =
      List.drop 12 input ++ ([192, 12, 0, 1, 0, 1, 0, 0, 0, 60, 0, 4] ++ ip) :=
    List.drop_append_of_le_length (by omega)
  rw [ht2, hd12]
  rw [List.take_of_length_le
    (by simp [List.length_append, List.length_take, List.length_drop, hip]; omega)]
  simp [List.append_assoc]

/-- Witness for C6: the concrete query for the name "ab" receives the
answer 192.168.4.1 in exactly the claimed layout. -/
theorem dns_c6_witness :
    wellFormedQuery exQuery 16 ∧
    dns_server_process [192, 168, 4, 1] exQuery (List.replicate 320 7) =
      some (exQuery.take 2 ++ [132, 128, 0, 1, 0, 1, 0, 0, 0, 0] ++
        exQuery.drop 12 ++ [192, 12, 0, 1, 0, 1, 0, 0, 0, 60, 0, 4] ++
        [192, 168, 4, 1]) :=
  ⟨by unfold wellFormedQuery; decide,
   dns_c6 [192, 168, 4, 1] exQuery (List.replicate 320 7) 16 (by decide)
     (by unfold wellFormedQuery; decide)⟩

end Dns

namespace Dns

/-- C7: every malformed query is dropped with no reply: shorter than the
12-byte header, QR bit already set, non-zero opcode bits, question count
zero, a label longer than 63 bytes encountered while scanning the name
(scanName returns none), or a question-name span above 255 bytes. -/
theorem dns_c7 (ip input junk : List Nat)
    (h : input.length < 12 ∨
         dnsFlags input / 32768 % 2 ≠ 0 ∨
         dnsFlags input / 2048 % 16 ≠ 0 ∨
         dnsQCount input = 0 ∨
         scanName input (min input.length 300) 300 12 = none ∨
         ∃ q t, scanName input (min input.length 300) 300 12 = some (q, t) ∧
           255 < q - 12) :
    dns_server_process ip input junk = none := by
  by_cases h12 : min input.length 300 < 12
  · simp only [dns_server_process]
    rw [if_pos h12]
  · have hlen12 : 12 ≤ input.length := by omega
    have hbyte : ∀ q, q < min input.length 300 →
        (input.take 300 ++ junk).getD q 0 = input.getD q 0 := by
      intro q hq
      rw [getD_append_left _ _ _ _ (by simp [List.length_take]; omega)]
      exact getD_take_lt _ _ _ _ (by omega)
    have hfl : dnsFlags (input.take 300 ++ junk) = dnsFlags input := by
      unfold dnsFlags
      rw [hbyte 2 (by omega), hbyte 3 (by omega)]
    have hqcnt : dnsQCount (input.take 300 ++ junk) = dnsQCount input := by
      unfold dnsQCount
      rw [hbyte 4 (by omega), hbyte 5 (by omega)]
    have hscn : scanName (input.take 300 ++ junk) (min input.length 300) 300 12 =
        scanName input (min input.length 300) 300 12 :=
      scanName_congr _ _ _ hbyte 300 12
    simp only [dns_server_process]
    rw [if_neg h12, hfl, hqcnt, hscn]
    rcases h with h | h | h | h | h | ⟨q, t, hs, hq⟩
    · omega
    · rw [if_pos h]
    · by_cases hqr : dnsFlags input / 32768 % 2 ≠ 0
      · rw [if_pos hqr]
      · rw [if_neg hqr, if_pos h]
    · by_cases hqr : dnsFlags input / 32768 % 2 ≠ 0
      · rw [if_pos hqr]
      · rw [if_neg hqr]
        by_cases hopc : dnsFlags input / 2048 % 16 ≠ 0
        · rw [if_pos hopc]
        · rw [if_neg hopc, if_pos (by omega : dnsQCount input < 1)]
    · by_cases hqr : dnsFlags input / 32768 % 2 ≠ 0
      · rw [if_pos hqr]
      · rw [if_neg hqr]
        by_cases hopc : dnsFlags input / 2048 % 16 ≠ 0
        · rw [if_pos hopc]
        · rw [if_neg hopc]
          by_cases hc : dnsQCount input < 1
          · rw [if_pos hc]
          · rw [if_neg hc, h]
    · by_cases hqr : dnsFlags input / 32768 % 2 ≠ 0
      · rw [if_pos hqr]
      · rw [if_neg hqr]
        by_cases hopc : dnsFlags input / 2048 % 16 ≠ 0
        · rw [if_pos hopc]
        · rw [if_neg hopc]
          by_cases hc : dnsQCount input < 1
          · rw [if_pos hc]
          · rw [if_neg hc, hs]
            simp only []
            rw [if_pos (by omega : q - 12 > 255)]

/-- Witness for C7: the query with the QR bit already set is dropped. -/
theorem dns_c7_witness :
    dnsFlags exBadQuery / 32768 % 2 ≠ 0 ∧
    dns_server_process [192, 168, 4, 1] exBadQuery [] = none :=
  ⟨by decide,
   dns_c7 [192, 168, 4, 1] exBadQuery [] (Or.inr (Or.inl (by decide)))⟩

end Dns

namespace Http

theorem add_response_header_inv (r : HttpResponse) (key value : List Nat)
    (h1 : r.headers_len ≤ MAX_HEADERS_SIZE - 1)
    (h2 : r.headers.length = r.headers_len) :
    (add_response_header r key value).headers_len ≤ MAX_HEADERS_SIZE - 1 ∧
    (add_response_header r key value).headers.length =
      (add_response_header r key value).headers_len := by
  unfold add_response_header
  by_cases hw : 0 < value.length ∧ value.length < 256
  · rw [if_pos hw]
    by_cases hfit : (key ++ [58, 32] ++ value ++ [13, 10]).length <
        MAX_HEADERS_SIZE - r.headers_len
    · rw [if_pos hfit]
      refine ⟨?_, ?_⟩
      · simp only [MAX_HEADERS_SIZE] at *
        omega
      · simp [List.length_append, h2]
    · rw [if_neg hfit]
      refine ⟨?_, ?_⟩
      · simp [MAX_HEADERS_SIZE]
      · simp only [List.length_append, List.length_take, h2, MAX_HEADERS_SIZE] at *
        omega
  · rw [if_neg hw]
    exact ⟨h1, h2⟩

theorem add_response_header_trunc (r : HttpResponse) (key value : List Nat)
    (hpos : 0 < value.length) (hlt : value.length < 256)
    (hover : MAX_HEADERS_SIZE - r.headers_len ≤
      (key ++ [58, 32] ++ value ++ [13, 10]).length) :
    (add_response_header r key value).headers_len = MAX_HEADERS_SIZE - 1 := by
  unfold add_response_header
  rw [if_pos ⟨hpos, hlt⟩, if_neg (by omega)]

theorem add_headers_foldl_inv (calls : List (List Nat × List Nat)) :
    ∀ r : HttpResponse, r.headers_len ≤ MAX_HEADERS_SIZE - 1 →
      r.headers.length = r.headers_len →
      (calls.foldl (fun acc kv => add_response_header acc kv.1 kv.2) r).headers_len ≤
          MAX_HEADERS_SIZE - 1 ∧
      (calls.foldl (fun acc kv => add_response_header acc kv.1 kv.2) r).headers.length =
        (calls.foldl (fun acc kv => add_response_header acc kv.1 kv.2) r).headers_len := by
  induction calls with
  | nil => intro r h1 h2; exact ⟨h1, h2⟩
  | cons c cs ih =>
    intro r h1 h2
    have hstep := add_response_header_inv r c.1 c.2 h1 h2
    simpa [List.foldl] using ih _ hstep.1 hstep.2

/-- C8: after any sequence of add_response_header calls starting from an
initialized response, headers_len is at most MAX_HEADERS_SIZE - 1 and the
written header block has exactly headers_len bytes (so the NUL terminator
stays inside the header area and nothing is written past it); moreover an
append whose line reaches the remaining space returns normally with the
block truncated at the capacity boundary, headers_len = MAX_HEADERS_SIZE - 1. -/
theorem http_c8 (calls : List (List Nat × List Nat)) (key value : List Nat) :
    ((calls.foldl (fun acc kv => add_response_header acc kv.1 kv.2)
        init_http_response).headers_len ≤ MAX_HEADERS_SIZE - 1 ∧
      (calls.foldl (fun acc kv => add_response_header acc kv.1 kv.2)
          init_http_response).headers.length =
        (calls.foldl (fun acc kv => add_response_header acc kv.1 kv.2)
          init_http_response).headers_len) ∧
    (0 < value.length → value.length < 256 →
      MAX_HEADERS_SIZE -
          (calls.foldl (fun acc kv => add_response_header acc kv.1 kv.2)
            init_http_response).headers_len ≤
        (key ++ [58, 32] ++ value ++ [13, 10]).length →
      (add_response_header
          (calls.foldl (fun acc kv => add_response_header acc kv.1 kv.2)
            init_http_response) key value).headers_len = MAX_HEADERS_SIZE - 1) := by
  have hmain := add_headers_foldl_inv calls init_http_response
    (by simp [init_http_response, MAX_HEADERS_SIZE]) (by simp [init_http_response])
  refine ⟨hmain, ?_⟩
  intro hpos hlt hover
  exact add_response_header_trunc _ key value hpos hlt hover

/-- Witness for C8: two large appends fill the header area to 1023 bytes
(the second truncates at the boundary), and a further small append still
returns normally with headers_len pinned at MAX_HEADERS_SIZE - 1. -/
theorem http_c8_witness :
    0 < [68].length ∧ [68].length < 256 ∧
    MAX_HEADERS_SIZE -
        ([(exKey, exVal), (exKey, exVal)].foldl
          (fun acc kv => add_response_header acc kv.1 kv.2)
          init_http_response).headers_len ≤
      ([67] ++ [58, 32] ++ [68] ++ [13, 10]).length ∧
    (add_response_header
        ([(exKey, exVal), (exKey, exVal)].foldl
          (fun acc kv => add_response_header acc kv.1 kv.2)
          init_http_response) [67] [68]).headers_len = MAX_HEADERS_SIZE - 1 := by
  have hKlen : exKey.length = 300 := by
    rw [exKey]; exact List.length_replicate _ _
  have hVlen : exVal.length = 255 := by
    rw [exVal]; exact List.length_replicate _ _
  have hline : (exKey ++ [58, 32] ++ exVal ++ [13, 10]).length = 559 := by
    simp only [List.length_append, hKlen, hVlen, List.length_cons, List.length_nil]
  have h1 : (add_response_header init_http_response exKey exVal).headers_len = 559 := by
    unfold add_response_header
    rw [if_pos (by rw [hVlen]; omega : 0 < exVal.length ∧ exVal.length < 256),
      if_pos (by rw [hline]; simp [init_http_response, MAX_HEADERS_SIZE])]
    simp only [init_http_response, hline]
  have hfold : [(exKey, exVal), (exKey, exVal)].foldl
      (fun acc kv => add_response_header acc kv.1 kv.2) init_http_response =
      add_response_header (add_response_header init_http_response exKey exVal)
        exKey exVal := by
    simp only [List.foldl_cons, List.foldl_nil]
  have h2 : (add_response_header (add_response_header init_http_response exKey exVal)
      exKey exVal).headers_len = MAX_HEADERS_SIZE - 1 :=
    add_response_header_trunc _ exKey exVal (by rw [hVlen]; omega)
      (by rw [hVlen]; omega) (by rw [h1, hline]; simp [MAX_HEADERS_SIZE])
  have hover : MAX_HEADERS_SIZE -
      ([(exKey, exVal), (exKey, exVal)].foldl
        (fun acc kv => add_response_header acc kv.1 kv.2)
        init_http_response).headers_len ≤
      ([67] ++ [58, 32] ++ [68] ++ [13, 10]).length := by
    rw [hfold, h2]
    decide
  exact ⟨by decide, by decide, hover,
    (http_c8 [(exKey, exVal), (exKey, exVal)] [67] [68]).2 (by decide) (by decide)
      hover⟩

/-- C9: handle_route serves the index page exactly when the first 6 bytes
of the request are "GET / " or its first 10 bytes are "GET /index"; any
such request (including "GET /indexes HTTP/1.1") gets the index body, all
others get the 404 response. -/
theorem http_c9 (request : List Nat) :
    ((handle_route request init_http_response).status_code ≠ 404 ↔
      (request.take 6 = asciiBytes "GET / " ∨
        request.take 10 = asciiBytes "GET /index")) ∧
    ((request.take 6 = asciiBytes "GET / " ∨
        request.take 10 = asciiBytes "GET /index") →
      (handle_route request init_http_response).body = some htmlTemplate) := by
  by_cases hc : request.take 6 = asciiBytes "GET / " ∨
      request.take 10 = asciiBytes "GET /index"
  · refine ⟨iff_of_true ?_ hc, fun _ => ?_⟩
    · unfold handle_route
      rw [if_pos hc]
      decide
    · unfold handle_route
      rw [if_pos hc]
      rfl
  · refine ⟨iff_of_false ?_ hc, fun h => absurd h hc⟩
    unfold handle_route
    rw [if_neg hc]
    decide

/-- Witness for C9: the request "GET /indexes HTTP/1.1" matches the
10-byte prefix test and is served the index page, not the 404 response. -/
theorem http_c9_witness :
    (asciiBytes "GET /indexes HTTP/1.1").take 10 = asciiBytes "GET /index" ∧
    (handle_route (asciiBytes "GET /indexes HTTP/1.1") init_http_response).body =
      some htmlTemplate ∧
    (handle_route (asciiBytes "GET /indexes HTTP/1.1") init_http_response).status_code ≠
      404 :=
  ⟨by decide,
   (http_c9 (asciiBytes "GET /indexes HTTP/1.1")).2 (Or.inr (by decide)),
   (http_c9 (asciiBytes "GET /indexes HTTP/1.1")).1.mpr (Or.inr (by decide))⟩

/-- C2, evaluation at the failing input: routes.c's handle_route serves the
index page for "GET / HTTP/1.1" by calling only set_response_body; it never
calls set_response_status (the set_response helper at routes.c line 97 that
would set 200 OK is never invoked), so the response still carries the
initialized status_code 0 and a NULL status_message, not status 200 as the
claim states; the body itself is the non-empty index page. -/
theorem http_c2_bug :
    (handle_route (asciiBytes "GET / HTTP/1.1\x0d\x0a\x0d\x0a")
        init_http_response).status_code = 0 ∧
    (handle_route (asciiBytes "GET / HTTP/1.1\x0d\x0a\x0d\x0a")
        init_http_response).status_message = none ∧
    (handle_route (asciiBytes "GET / HTTP/1.1\x0d\x0a\x0d\x0a")
        init_http_response).body = some htmlTemplate ∧
    (handle_route (asciiBytes "GET / HTTP/1.1\x0d\x0a\x0d\x0a")
        init_http_response).status_code ≠ 200 := by
  have hbr : handle_route (asciiBytes "GET / HTTP/1.1\x0d\x0a\x0d\x0a")
      init_http_response = set_response_body init_http_response get_html_content := by
    unfold handle_route
    rw [if_pos (Or.inl (by decide))]
  rw [hbr]
  exact ⟨rfl, rfl, rfl, by decide⟩

end Http
